import Mathlib

/-!
# Verification of the Escrowise admin authorization and audit core

A shallow embedding of the administrative control plane of the Escrowise
repository: the permission catalog and authorization decision procedure
(`src/lib/adminPermissions.ts`), the admin transaction route handlers
(`src/app/api/admin/transactions/[id]/route.ts`), the admin user route
handlers, the generic data-management route handlers, and the
`user_profiles` route handlers.

Conventions of the embedding:
* JavaScript objects / table rows are association lists `List (String × String)`
  from field name to field value; object spread and `update(...)` column
  semantics are modelled by `setField` / `applyUpdate`.
* The Supabase client is modelled by an explicit database state `DB` threaded
  through each handler; a query error on the single-row update or on the
  audit insert is modelled by the injected-failure flags `persistFails` /
  `auditInsertFails`.
* `async`/`await` plumbing, HTTP header extraction and JSON parsing are
  outside the model: handlers receive the already-parsed payload.
* JavaScript string operations (`toUpperCase`, `replace(/_/g, " ")`,
  `split("_")`) are re-implemented character-by-character so that they are
  kernel-computable.
-/

/-! ## Character-level models of the JavaScript string operations -/

/-- JS `s.toUpperCase()` (ASCII, which is all the catalog uses). -/
def jsToUpperCase (s : String) : String :=
  String.mk (s.data.map Char.toUpper)

/-- JS `s.replace(/_/g, " ")`. -/
def jsReplaceUnderscores (s : String) : String :=
  String.mk (s.data.map fun c => if c = '_' then ' ' else c)

/-- Helper for `jsSplitUnderscore`: split a character list at a separator. -/
def splitCharAux (sep : Char) : List Char → List Char → List String
  | [], acc => [String.mk acc.reverse]
  | c :: cs, acc =>
    if c = sep then String.mk acc.reverse :: splitCharAux sep cs []
    else splitCharAux sep cs (c :: acc)

/-- JS `s.split("_")`. -/
def jsSplitUnderscore (s : String) : List String :=
  splitCharAux '_' s.data []

/-- JS `s.split("_")[i] || dflt`: an out-of-range index gives `undefined` and
an empty string is falsy, so both fall back to `dflt`. -/
def jsSplitIndexOr (s : String) (i : Nat) (dflt : String) : String :=
  match (jsSplitUnderscore s).get? i with
  | none => dflt
  | some piece => if piece = "" then dflt else piece

/-! ## `src/lib/adminPermissions.ts`: the permission catalog -/

/-- `interface AdminPermission` from `src/lib/adminPermissions.ts`. -/
structure AdminPermission where
  id : String
  name : String
  description : String
  resource : String
  action : String
deriving DecidableEq, Repr

/-- `interface AdminRole` from `src/lib/adminPermissions.ts`. -/
structure AdminRole where
  id : String
  name : String
  description : String
  permissions : List AdminPermission
deriving DecidableEq, Repr

/-- `Object.values(ADMIN_PERMISSIONS)`: the fixed permission identifiers, in
the key-insertion order of the catalog. -/
def ADMIN_PERMISSIONS : List String :=
  [ "view_transactions", "edit_transactions", "cancel_transactions",
    "delete_transactions",
    "view_users", "edit_users", "deactivate_users", "verify_users",
    "view_data", "edit_data", "delete_data",
    "view_audit_logs", "manage_settings", "view_analytics", "manage_disputes" ]

/-- The `.map(permission => ({...}))` constructor shared by every role entry
of `ADMIN_ROLES`. -/
def mkPermission (permission : String) : AdminPermission :=
  { id := permission
    name := jsToUpperCase (jsReplaceUnderscores permission)
    description := "Permission to " ++ jsReplaceUnderscores permission
    resource := jsSplitIndexOr permission 1 "system"
    action := jsSplitIndexOr permission 0 "manage" }

/-- `ADMIN_ROLES`, a `Record<string, AdminRole>`: JS bracket lookup on a
missing key gives `undefined`, modelled as `none`. -/
def ADMIN_ROLES : String → Option AdminRole
  | "SUPER_ADMIN" => some
      { id := "super_admin", name := "Super Admin"
        description := "Full access to all admin functions"
        permissions := ADMIN_PERMISSIONS.map mkPermission }
  | "ADMIN" => some
      { id := "admin", name := "Admin"
        description := "Standard admin access with most permissions"
        permissions :=
          [ "view_transactions", "edit_transactions", "cancel_transactions",
            "view_users", "edit_users", "deactivate_users", "verify_users",
            "view_data", "edit_data",
            "view_audit_logs", "view_analytics", "manage_disputes"
          ].map mkPermission }
  | "MODERATOR" => some
      { id := "moderator", name := "Moderator"
        description := "Limited admin access for content moderation"
        permissions :=
          [ "view_transactions", "view_users", "edit_users", "verify_users",
            "view_analytics", "manage_disputes" ].map mkPermission }
  | _ => none

/-- `hasAdminPermission(adminId, permission)`.  The `profiles` role query for
the admin id is abstracted to its outcome `roleLookup`: `some role` when the
query returned a profile, `none` when it errored, found no profile, or threw
(every such path returns `false` in the source). -/
def hasAdminPermission (roleLookup : Option String) (permission : String) : Bool :=
  match roleLookup with
  | none => false
  | some role =>
    if role = "admin" then
      true
    else
      match ADMIN_ROLES (jsToUpperCase role) with
      | none => false
      | some r => r.permissions.any fun p => p.id = permission

/-- `getAdminPermissions(adminId)`, with the role query abstracted as in
`hasAdminPermission`. -/
def getAdminPermissions (roleLookup : Option String) : List String :=
  match roleLookup with
  | none => []
  | some role =>
    if role = "admin" then
      ADMIN_PERMISSIONS
    else
      match ADMIN_ROLES (jsToUpperCase role) with
      | none => []
      | some r => r.permissions.map fun p => p.id

/-- `requireAdminPermission(adminId, permission)`: delegates to
`hasAdminPermission`; the `console.warn` diagnostic has no model. -/
def requireAdminPermission (roleLookup : Option String) (permission : String) : Bool :=
  hasAdminPermission roleLookup permission

/-! ## Rows, tables and the database state -/

/-- A table row / JSON object: an association list from field name to field
value.  Field values are strings; the claims under study only move values
around, never compute with them. -/
abbrev Row := List (String × String)

/-- Read field `k` of row `r` (JS property access; `none` is `undefined`). -/
def getField (r : Row) (k : String) : Option String :=
  (r.find? fun kv => kv.1 = k).map Prod.snd

/-- Set field `k` of row `r` to `v` (JS property assignment / spread
override): replaces an existing binding in place, else appends. -/
def setField (r : Row) (k v : String) : Row :=
  if r.any fun kv => kv.1 = k then
    r.map fun kv => if kv.1 = k then (k, v) else kv
  else
    r ++ [(k, v)]

/-- Supabase `.update(u)` column semantics on one row: each field of the
update object overwrites the corresponding column, other columns persist. -/
def applyUpdate (r : Row) (u : Row) : Row :=
  match u with
  | [] => r
  | kv :: rest => applyUpdate (setField r kv.1 kv.2) rest

/-- `const { id: _, created_at, ...allowedUpdates } = updateData` from the
generic data-management PUT: drop the two system-owned fields. -/
def stripSystemFields (u : Row) : Row :=
  u.filter fun kv => kv.1 != "id" && kv.1 != "created_at"

/-- `.select("*").eq("id", id).single()`: the row whose `id` column is `id`. -/
def findRow (rows : List Row) (id : String) : Option Row :=
  rows.find? fun r => getField r "id" = some id

/-- `.update(u).eq("id", id)`: apply the update object to every row whose
`id` column matches. -/
def updateRow (rows : List Row) (id : String) (u : Row) : List Row :=
  rows.map fun r => if getField r "id" = some id then applyUpdate r u else r

/-- `.delete().eq("id", id)`: remove every row whose `id` column matches. -/
def deleteRow (rows : List Row) (id : String) : List Row :=
  rows.filter fun r => !(getField r "id" == some id)

/-- One `audit_logs` insert payload, as built by the route handlers and by
`logAdminAction`. -/
structure AuditRecord where
  action : String
  entity_type : String
  entity_id : Option String
  old_value : Option Row
  new_value : Option Row
  performed_by : String
  ip_address : Option String
  user_agent : Option String
deriving DecidableEq, Repr

/-- The storage state threaded through each handler.  `tables` maps a table
name to its rows; the append-only audit ledger is kept structured in
`audit_logs`.  `persistFails` injects a storage error on the entity
update/delete, `auditInsertFails` injects a storage error on the audit
insert. -/
structure DB where
  tables : List (String × List Row)
  audit_logs : List AuditRecord
  persistFails : Bool
  auditInsertFails : Bool
deriving DecidableEq, Repr

/-- Rows of table `t` (Supabase `.from(t)`). -/
def getTable (db : DB) (t : String) : List Row :=
  match db.tables.find? fun e => e.1 = t with
  | none => []
  | some e => e.2

/-- Replace the rows of table `t`. -/
def setTable (db : DB) (t : String) (rows : List Row) : DB :=
  { db with tables := db.tables.map fun e => if e.1 = t then (t, rows) else e }

/-- `supabaseAdmin.from("audit_logs").insert({...})`: appends one record, or
does nothing when the storage layer rejects the insert (the route handlers
ignore the returned error object, and `logAdminAction` additionally catches
any exception). -/
def auditInsert (db : DB) (rec : AuditRecord) : DB :=
  if db.auditInsertFails then db
  else { db with audit_logs := db.audit_logs ++ [rec] }

/-- `logAdminAction(adminId, action, entityType, entityId, oldValue,
newValue, ipAddress, userAgent)` from `src/lib/adminPermissions.ts`: inserts
one audit record; a failure is caught and logged, never propagated (the
function always returns normally). -/
def logAdminAction (db : DB) (adminId action entityType : String)
    (entityId : Option String) (oldValue newValue : Option Row)
    (ipAddress userAgent : Option String) : DB :=
  auditInsert db
    { action := action
      entity_type := entityType
      entity_id := entityId
      old_value := oldValue
      new_value := newValue
      performed_by := adminId
      ip_address := ipAddress
      user_agent := userAgent }

/-- The observable outcome of a route handler: a JSON success body, a
success message wrapping the mutated entity, or an error status + message. -/
inductive ApiResponse where
  | ok (body : Row) : ApiResponse
  | okMsg (message : String) (body : Option Row) : ApiResponse
  | err (status : Nat) (message : String) : ApiResponse
deriving DecidableEq, Repr

/-! ## Route handlers

Each handler is the body of the corresponding TypeScript route function,
after `requireAdmin()` succeeded (its failure returns a response before any
of the modelled code runs, leaving the state untouched).  `roleLookup` is
the outcome of the `profiles` role query made by `requireAdminPermission`
for the authenticated admin; `userId` is the outcome of
`supabaseAdmin.auth.getUser()`; `now` is `new Date().toISOString()`; `ip`
and `ua` are the request header values.  Storage error messages surfaced at
500 are abstracted to the fixed text of the model. -/

/-- JS truthiness of a string-valued property: `undefined` and the empty
string are falsy. -/
def jsTruthy : Option String → Bool
  | none => false
  | some s => !(s == "")

/-- `PUT /api/admin/transactions/[id]`
(`src/app/api/admin/transactions/[id]/route.ts`). -/
def putTransaction (db : DB) (roleLookup : Option String) (adminId : String)
    (id : String) (updateData : Row) (now : String) (ip ua : Option String) :
    ApiResponse × DB :=
  if !(requireAdminPermission roleLookup "edit_transactions") then
    (.err 403 "Insufficient permissions", db)
  else
    match findRow (getTable db "escrow_transactions") id with
    | none => (.err 404 "Transaction not found", db)
    | some currentTransaction =>
      if db.persistFails then (.err 500 "update failed", db)
      else
        let updSpec := setField updateData "updated_at" now
        let newRow := applyUpdate currentTransaction updSpec
        let db1 := setTable db "escrow_transactions"
          (updateRow (getTable db "escrow_transactions") id updSpec)
        let db2 := logAdminAction db1 adminId "UPDATE_TRANSACTION" "transaction"
          (some id) (some currentTransaction) (some newRow) ip ua
        (.ok newRow, db2)

/-- `DELETE /api/admin/transactions/[id]`
(`src/app/api/admin/transactions/[id]/route.ts`): cancels rather than
deletes, rejecting only when the current status is `completed`. -/
def deleteTransaction (db : DB) (roleLookup : Option String) (adminId : String)
    (id : String) (now : String) (ip ua : Option String) : ApiResponse × DB :=
  if !(requireAdminPermission roleLookup "cancel_transactions") then
    (.err 403 "Insufficient permissions", db)
  else
    match findRow (getTable db "escrow_transactions") id with
    | none => (.err 404 "Transaction not found", db)
    | some currentTransaction =>
      if getField currentTransaction "status" = some "completed" then
        (.err 400 "Cannot cancel completed transaction", db)
      else if db.persistFails then (.err 500 "update failed", db)
      else
        let updSpec : Row := [("status", "cancelled"), ("updated_at", now)]
        let newRow := applyUpdate currentTransaction updSpec
        let db1 := setTable db "escrow_transactions"
          (updateRow (getTable db "escrow_transactions") id updSpec)
        let db2 := logAdminAction db1 adminId "CANCEL_TRANSACTION" "transaction"
          (some id) (some currentTransaction) (some newRow) ip ua
        (.okMsg "Transaction cancelled successfully" (some newRow), db2)

/-- `PUT /api/admin/users/[id]` (the admin user route): arbitrary profile
update with a self role-change guard. -/
def putUser (db : DB) (userId : Option String) (id : String) (updateData : Row)
    (now : String) (ip ua : Option String) : ApiResponse × DB :=
  match userId with
  | none => (.err 401 "Unauthorized", db)
  | some uid =>
    match findRow (getTable db "profiles") id with
    | none => (.err 404 "User not found", db)
    | some currentUser =>
      if uid = id && jsTruthy (getField updateData "role")
          && !(getField updateData "role" == some "admin") then
        (.err 400 "Cannot change your own admin role", db)
      else if db.persistFails then (.err 500 "update failed", db)
      else
        let updSpec := setField updateData "updated_at" now
        let newRow := applyUpdate currentUser updSpec
        let db1 := setTable db "profiles"
          (updateRow (getTable db "profiles") id updSpec)
        let db2 := auditInsert db1
          { action := "UPDATE_USER", entity_type := "user", entity_id := some id
            old_value := some currentUser, new_value := some newRow
            performed_by := uid
            ip_address := some (ip.getD "unknown")
            user_agent := some (ua.getD "unknown") }
        (.ok newRow, db2)

/-- `DELETE /api/admin/users/[id]` (the admin user route): deactivates the
account (status change), guarded against self-deactivation. -/
def deleteUser (db : DB) (userId : Option String) (id : String) (now : String)
    (ip ua : Option String) : ApiResponse × DB :=
  match userId with
  | none => (.err 401 "Unauthorized", db)
  | some uid =>
    if uid = id then (.err 400 "Cannot deactivate your own account", db)
    else
      match findRow (getTable db "profiles") id with
      | none => (.err 404 "User not found", db)
      | some currentUser =>
        if db.persistFails then (.err 500 "update failed", db)
        else
          let updSpec : Row := [("status", "inactive"), ("updated_at", now)]
          let newRow := applyUpdate currentUser updSpec
          let db1 := setTable db "profiles"
            (updateRow (getTable db "profiles") id updSpec)
          let db2 := auditInsert db1
            { action := "DEACTIVATE_USER", entity_type := "user"
              entity_id := some id
              old_value := some currentUser, new_value := some newRow
              performed_by := uid
              ip_address := some (ip.getD "unknown")
              user_agent := some (ua.getD "unknown") }
          (.okMsg "User deactivated successfully" (some newRow), db2)

/-- The table allow-list shared by the generic data-management routes. -/
def allowedTables : List String :=
  [ "profiles", "transactions", "escrow_transactions", "disputes",
    "audit_logs", "verification_queue" ]

/-- `PUT /api/admin/data/[table]/[id]` (generic data-management update):
strips the system-owned fields `id` and `created_at`, adds `updated_at`. -/
def dataPut (db : DB) (userId : Option String) (table id : String)
    (updateData : Row) (now : String) (ip ua : Option String) :
    ApiResponse × DB :=
  if !(allowedTables.contains table) then (.err 403 "Table not allowed", db)
  else
    match userId with
    | none => (.err 401 "Unauthorized", db)
    | some uid =>
      match findRow (getTable db table) id with
      | none => (.err 404 "Row not found", db)
      | some currentData =>
        let allowedUpdates := stripSystemFields updateData
        let finalUpdateData := setField allowedUpdates "updated_at" now
        if db.persistFails then (.err 500 "update failed", db)
        else
          let newRow := applyUpdate currentData finalUpdateData
          let db1 := setTable db table
            (updateRow (getTable db table) id finalUpdateData)
          let db2 := auditInsert db1
            { action := "UPDATE_" ++ jsToUpperCase table, entity_type := table
              entity_id := some id
              old_value := some currentData, new_value := some newRow
              performed_by := uid
              ip_address := some (ip.getD "unknown")
              user_agent := some (ua.getD "unknown") }
          (.ok newRow, db2)

/-- `DELETE /api/admin/data/[table]/[id]` (generic data-management delete):
hard-deletes the addressed row of any allow-listed table. -/
def dataDelete (db : DB) (userId : Option String) (table id : String)
    (ip ua : Option String) : ApiResponse × DB :=
  if !(allowedTables.contains table) then (.err 403 "Table not allowed", db)
  else
    match userId with
    | none => (.err 401 "Unauthorized", db)
    | some uid =>
      match findRow (getTable db table) id with
      | none => (.err 404 "Row not found", db)
      | some currentData =>
        if db.persistFails then (.err 500 "delete failed", db)
        else
          let db1 := setTable db table (deleteRow (getTable db table) id)
          let db2 := auditInsert db1
            { action := "DELETE_" ++ jsToUpperCase table, entity_type := table
              entity_id := some id
              old_value := some currentData, new_value := none
              performed_by := uid
              ip_address := some (ip.getD "unknown")
              user_agent := some (ua.getD "unknown") }
          (.okMsg "Row deleted successfully" none, db2)

/-- `DELETE /api/admin/users/[id]` of the `user_profiles` route (the second
document embedded in `src/lib/adminPermissions.ts`): a hard row delete with
no audit record. -/
def deleteUserProfile (db : DB) (id : String) : ApiResponse × DB :=
  if db.persistFails then (.err 500 "delete failed", db)
  else
    (.okMsg "success" none,
     setTable db "user_profiles" (deleteRow (getTable db "user_profiles") id))

/-- The value of the last binding of field `k` in an update object `u` — for
an object built from a JS literal (unique keys) this is just the value the
object holds at `k`. -/
def lastFieldValue : Row → String → Option String
  | [], _ => none
  | kv :: rest, k =>
    match lastFieldValue rest k with
    | some v => some v
    | none => if kv.1 = k then some kv.2 else none

/-- Does update object `u` bind field `k` at all? -/
def hasField (u : Row) (k : String) : Bool :=
  u.any fun kv => kv.1 = k

/-! ## Lemmas about field access and updates -/


theorem getField_setField_same (r : Row) (k v : String) :
    getField (setField r k v) k = some v := by
  unfold setField
  split
  case isTrue h =>
    induction r with
    | nil => simp at h
    | cons kv rest ih =>
      by_cases hk : kv.1 = k
      · simp [getField, List.find?_cons, hk]
      · have h2 : (rest.any fun kv => decide (kv.1 = k)) = true := by
          simpa [hk] using h
        simpa [getField, List.find?_cons, hk] using ih h2
  case isFalse h =>
    induction r with
    | nil => simp [getField, List.find?_cons]
    | cons kv rest ih =>
      have h1 : ¬ kv.1 = k := by
        intro hc
        exact h (by simp [hc])
      have h2 : ¬ (rest.any fun kv => decide (kv.1 = k)) = true := by
        intro hc
        exact h (by simp [hc])
      simpa [getField, List.find?_cons, h1] using ih h2

theorem getField_setField_other (r : Row) (k v kk : String) (hkk : kk ≠ k) :
    getField (setField r k v) kk = getField r kk := by
  unfold setField
  split
  case isTrue h =>
    clear h
    induction r with
    | nil => simp
    | cons kv rest ih =>
      by_cases hk : kv.1 = k
      · have hne : ¬ k = kk := Ne.symm hkk
        have hne2 : ¬ kv.1 = kk := by rw [hk]; exact hne
        simpa [getField, List.find?_cons, hk, hne, hne2] using ih
      · by_cases hkv : kv.1 = kk
        · have hd : decide (kv.1 = kk) = true := by simp [hkv]
          simp only [List.map_cons, if_neg hk, getField, List.find?_cons, hd]
        · simpa [getField, List.find?_cons, hk, hkv] using ih
  case isFalse h =>
    clear h
    induction r with
    | nil => simp [getField, List.find?_cons, Ne.symm hkk]
    | cons kv rest ih =>
      by_cases hkv : kv.1 = kk
      · simp [getField, List.find?_cons, hkv]
      · simpa [getField, List.find?_cons, hkv] using ih


theorem getField_applyUpdate (u : Row) (r : Row) (k : String) :
    getField (applyUpdate r u) k =
      match lastFieldValue u k with
      | some v => some v
      | none => getField r k := by
  induction u generalizing r with
  | nil => simp [applyUpdate, lastFieldValue]
  | cons kv rest ih =>
    simp only [applyUpdate, lastFieldValue]
    rw [ih]
    cases hl : lastFieldValue rest k with
    | some v => simp
    | none =>
      by_cases hk : kv.1 = k
      · have h2 : getField (setField r kv.1 kv.2) k = some kv.2 := by
          rw [hk]
          exact getField_setField_same r k kv.2
        rw [if_pos hk]
        simpa using h2
      · have h2 : getField (setField r kv.1 kv.2) k = getField r k :=
          getField_setField_other r kv.1 kv.2 k (fun hc => hk hc.symm)
        rw [if_neg hk]
        simpa using h2

theorem hasField_eq_false_iff (u : Row) (k : String) :
    hasField u k = false ↔ lastFieldValue u k = none := by
  induction u with
  | nil => simp [hasField, lastFieldValue]
  | cons kv rest ih =>
    simp only [hasField, List.any_cons, Bool.or_eq_false_iff,
      decide_eq_false_iff_not, lastFieldValue] at ih ⊢
    constructor
    · intro h
      rw [ih.mp h.2]
      simp [h.1]
    · intro h
      cases hl : lastFieldValue rest k with
      | some v => rw [hl] at h; exact absurd h (by simp)
      | none =>
        rw [hl] at h
        refine ⟨?_, ih.mpr hl⟩
        intro hc
        rw [if_pos hc] at h
        exact absurd h (by simp)

theorem getField_applyUpdate_of_not_bound (u : Row) (r : Row) (k : String)
    (h : hasField u k = false) :
    getField (applyUpdate r u) k = getField r k := by
  rw [getField_applyUpdate, (hasField_eq_false_iff u k).mp h]

theorem hasField_setField_other (u : Row) (k v kk : String) (hkk : kk ≠ k) :
    hasField (setField u k v) kk = hasField u kk := by
  unfold setField
  split
  case isTrue h =>
    clear h
    induction u with
    | nil => simp
    | cons kv rest ih =>
      simp only [hasField] at ih
      by_cases hk : kv.1 = k
      · have hne2 : ¬ kv.1 = kk := by rw [hk]; exact Ne.symm hkk
        simp only [List.map_cons, if_pos hk, hasField, List.any_cons, ih]
        simp [hne2, Ne.symm hkk]
      · simp only [List.map_cons, if_neg hk, hasField, List.any_cons, ih]
  case isFalse h =>
    clear h
    simp [hasField, Ne.symm hkk]

theorem lastFieldValue_append (u w : Row) (k : String) :
    lastFieldValue (u ++ w) k =
      match lastFieldValue w k with
      | some v => some v
      | none => lastFieldValue u k := by
  induction u with
  | nil =>
    simp only [List.nil_append, lastFieldValue]
    cases lastFieldValue w k <;> simp [lastFieldValue]
  | cons kv rest ih =>
    simp only [List.cons_append, lastFieldValue, List.append_eq]
    rw [ih]
    cases lastFieldValue w k <;> cases lastFieldValue rest k <;> simp

theorem lastFieldValue_setField_same (u : Row) (k v : String) :
    lastFieldValue (setField u k v) k = some v := by
  unfold setField
  split
  case isTrue h =>
    induction u with
    | nil => simp at h
    | cons kv rest ih =>
      by_cases hrest : (rest.any fun kv => decide (kv.1 = k)) = true
      · have := ih hrest
        simp only [List.map_cons, lastFieldValue, this]
      · have hk : kv.1 = k := by
          simp only [List.any_cons, Bool.or_eq_true, decide_eq_true_eq] at h
          rcases h with h | h
          · exact h
          · exact absurd h hrest
        have hmap : (rest.map fun kv => if kv.1 = k then (k, v) else kv)
            = rest := by
          have := List.map_congr_left (l := rest)
            (f := fun kv : String × String => if kv.1 = k then (k, v) else kv)
            (g := id) (fun a ha => by
              show (if a.1 = k then (k, v) else a) = id a
              rw [if_neg]
              · rfl
              · intro hc
                apply hrest
                exact List.any_eq_true.mpr ⟨a, ha, by simp [hc]⟩)
          simpa using this
        have hf : hasField rest k = false := by
          unfold hasField
          exact Bool.eq_false_iff.mpr hrest
        have hnone : lastFieldValue rest k = none :=
          (hasField_eq_false_iff rest k).mp hf
        simp only [List.map_cons, if_pos hk, lastFieldValue, hmap, hnone]
        simp
  case isFalse h =>
    rw [lastFieldValue_append]
    simp [lastFieldValue]

theorem lastFieldValue_setField_other (u : Row) (k v kk : String)
    (hkk : kk ≠ k) :
    lastFieldValue (setField u k v) kk = lastFieldValue u kk := by
  unfold setField
  split
  case isTrue h =>
    clear h
    induction u with
    | nil => simp
    | cons kv rest ih =>
      by_cases hk : kv.1 = k
      · have hne2 : ¬ kv.1 = kk := by rw [hk]; exact Ne.symm hkk
        simp only [List.map_cons, if_pos hk, lastFieldValue, ih]
        cases lastFieldValue rest kk <;> simp [Ne.symm hkk, hne2]
      · simp only [List.map_cons, if_neg hk, lastFieldValue, ih]
  case isFalse h =>
    clear h
    rw [lastFieldValue_append]
    simp only [lastFieldValue, if_neg (Ne.symm hkk)]

theorem hasField_stripSystemFields_id (u : Row) :
    hasField (stripSystemFields u) "id" = false := by
  simp only [hasField, stripSystemFields]
  simp
  exact fun a b _ h _ => h

theorem hasField_stripSystemFields_created_at (u : Row) :
    hasField (stripSystemFields u) "created_at" = false := by
  simp only [hasField, stripSystemFields]
  simp

theorem lastFieldValue_stripSystemFields (u : Row) (f : String)
    (hf1 : f ≠ "id") (hf2 : f ≠ "created_at") :
    lastFieldValue (stripSystemFields u) f = lastFieldValue u f := by
  induction u with
  | nil => simp [stripSystemFields]
  | cons kv rest ih =>
    simp only [stripSystemFields] at ih ⊢
    rw [List.filter_cons]
    by_cases hkeep : (kv.1 != "id" && kv.1 != "created_at") = true
    · rw [if_pos hkeep]
      simp only [lastFieldValue, ih]
    · have hcond : (kv.1 != "id" && kv.1 != "created_at") = false :=
        Bool.eq_false_iff.mpr hkeep
      simp only [hcond, Bool.false_eq_true, if_false]
      rw [ih]
      have hne : ¬ kv.1 = f := by
        intro hc
        apply hkeep
        simp only [Bool.and_eq_true, bne_iff_ne, ne_eq]
        constructor
        · rw [hc]; exact hf1
        · rw [hc]; exact hf2
      simp only [lastFieldValue, if_neg hne]
      cases lastFieldValue rest f <;> simp

theorem hasField_stripSystemFields (u : Row) (f : String)
    (hf1 : f ≠ "id") (hf2 : f ≠ "created_at") :
    hasField (stripSystemFields u) f = hasField u f := by
  cases hu : hasField u f with
  | false =>
    apply (hasField_eq_false_iff _ _).mpr
    rw [lastFieldValue_stripSystemFields u f hf1 hf2]
    exact (hasField_eq_false_iff _ _).mp hu
  | true =>
    by_contra hne
    have hfalse : hasField (stripSystemFields u) f = false := by
      cases hs : hasField (stripSystemFields u) f with
      | false => rfl
      | true => exact absurd hs hne
    have : lastFieldValue u f = none := by
      rw [← lastFieldValue_stripSystemFields u f hf1 hf2]
      exact (hasField_eq_false_iff _ _).mp hfalse
    rw [(hasField_eq_false_iff u f).mpr this] at hu
    exact Bool.false_ne_true hu

/-! ## Lemmas about the database state -/

theorem audit_logs_setTable (db : DB) (t : String) (rows : List Row) :
    (setTable db t rows).audit_logs = db.audit_logs := rfl

theorem persistFails_setTable (db : DB) (t : String) (rows : List Row) :
    (setTable db t rows).persistFails = db.persistFails := rfl

theorem auditInsertFails_setTable (db : DB) (t : String) (rows : List Row) :
    (setTable db t rows).auditInsertFails = db.auditInsertFails := rfl

theorem tables_auditInsert (db : DB) (rec : AuditRecord) :
    (auditInsert db rec).tables = db.tables := by
  unfold auditInsert
  split <;> rfl

theorem getTable_auditInsert (db : DB) (rec : AuditRecord) (t : String) :
    getTable (auditInsert db rec) t = getTable db t := by
  unfold getTable
  rw [tables_auditInsert]

theorem auditInsert_of_ok (db : DB) (rec : AuditRecord)
    (h : db.auditInsertFails = false) :
    auditInsert db rec = { db with audit_logs := db.audit_logs ++ [rec] } := by
  unfold auditInsert
  rw [h]
  simp

theorem auditInsert_of_fail (db : DB) (rec : AuditRecord)
    (h : db.auditInsertFails = true) :
    auditInsert db rec = db := by
  unfold auditInsert
  rw [h]
  simp

theorem findTableAux (l : List (String × List Row)) (t : String)
    (rows : List Row) (h : (l.any fun e => e.1 = t) = true) :
    (l.map fun e => if e.1 = t then (t, rows) else e).find?
        (fun e => e.1 = t) = some (t, rows) := by
  induction l with
  | nil => simp at h
  | cons e l ih =>
    by_cases he : e.1 = t
    · simp [List.find?_cons, he]
    · have h2 : (l.any fun e => decide (e.1 = t)) = true := by
        simpa [he] using h
      simpa [List.find?_cons, he] using ih h2

theorem getTable_setTable_of_mem (db : DB) (t : String) (rows : List Row)
    (h : (db.tables.any fun e => e.1 = t) = true) :
    getTable (setTable db t rows) t = rows := by
  unfold getTable setTable
  simp only
  rw [findTableAux db.tables t rows h]

theorem tables_setTable_of_not_mem (db : DB) (t : String) (rows : List Row)
    (h : (db.tables.any fun e => e.1 = t) = false) :
    (setTable db t rows).tables = db.tables := by
  unfold setTable
  simp only
  have := List.map_congr_left (l := db.tables)
    (f := fun e : String × List Row => if e.1 = t then (t, rows) else e)
    (g := id) (fun a ha => by
      show (if a.1 = t then (t, rows) else a) = id a
      rw [if_neg]
      · rfl
      · intro hc
        have : (db.tables.any fun e => decide (e.1 = t)) = true :=
          List.any_eq_true.mpr ⟨a, ha, by simp [hc]⟩
        rw [this] at h
        simp at h)
  simpa using this

theorem getTable_of_not_mem (db : DB) (t : String)
    (h : (db.tables.any fun e => e.1 = t) = false) :
    getTable db t = [] := by
  unfold getTable
  have : (db.tables.find? fun e => decide (e.1 = t)) = none := by
    rw [List.find?_eq_none]
    intro e he
    intro hc
    have : (db.tables.any fun e => decide (e.1 = t)) = true :=
      List.any_eq_true.mpr ⟨e, he, hc⟩
    rw [this] at h
    simp at h
  rw [this]

theorem map_id_updateRow (rows : List Row) (id : String) (u : Row)
    (h : hasField u "id" = false) :
    (updateRow rows id u).map (fun r => getField r "id")
      = rows.map fun r => getField r "id" := by
  unfold updateRow
  rw [List.map_map]
  apply List.map_congr_left
  intro r _
  show getField (if getField r "id" = some id then applyUpdate r u else r) "id"
    = getField r "id"
  by_cases hr : getField r "id" = some id
  · rw [if_pos hr]
    exact getField_applyUpdate_of_not_bound u r "id" h
  · rw [if_neg hr]

theorem findRow_updateRow (rows : List Row) (id : String) (u : Row)
    (h : hasField u "id" = false) :
    findRow (updateRow rows id u) id
      = (findRow rows id).map fun r => applyUpdate r u := by
  unfold findRow updateRow
  induction rows with
  | nil => simp
  | cons r rest ih =>
    by_cases hr : getField r "id" = some id
    · have hpred : decide (getField (applyUpdate r u) "id" = some id) = true := by
        rw [getField_applyUpdate_of_not_bound u r "id" h]
        simp [hr]
      simp only [List.map_cons, if_pos hr, List.find?_cons, hpred]
      simp [hr]
    · have hpred : decide (getField (applyUpdate r u) "id" = some id) = false := by
        rw [getField_applyUpdate_of_not_bound u r "id" h]
        simp [hr]
      have hpred2 : decide (getField r "id" = some id) = false := by simp [hr]
      simp only [List.map_cons, if_neg hr, List.find?_cons, hpred2]
      simpa [hpred2] using ih

/-! ## Claim theorems -/

/-- C5: for every actor whose resolved role is not the top-level role
`"admin"`, `hasAdminPermission` allows a permission iff it appears in that
`ADMIN_ROLES` catalog entry of that role; an unknown role (no catalog entry) or a
failed role lookup yields deny for every permission, never allow. -/
theorem nonTopRole_authorization_matches_catalog (role p : String)
    (hrole : role ≠ "admin") :
    (hasAdminPermission (some role) p = true ↔
      ∃ r, ADMIN_ROLES (jsToUpperCase role) = some r ∧
        p ∈ r.permissions.map fun q => q.id) ∧
    hasAdminPermission none p = false := by
  constructor
  · simp only [hasAdminPermission, if_neg hrole]
    cases h : ADMIN_ROLES (jsToUpperCase role) with
    | none => simp
    | some r =>
      simp only [List.any_eq_true, List.mem_map, decide_eq_true_eq,
        Option.some.injEq]
      constructor
      · rintro ⟨q, hq, hid⟩
        exact ⟨r, rfl, q, hq, hid⟩
      · rintro ⟨r2, hr2, q, hq, hid⟩
        subst hr2
        exact ⟨q, hq, hid⟩
  · rfl

/-- Witness for C5 at a concrete input: the `moderator` role is not the
top-level role, a failed lookup is denied, and `view_users` is allowed for
`moderator` exactly because it is in the catalog entry. -/
theorem nonTopRole_authorization_matches_catalog_witness :
    hasAdminPermission none "edit_users" = false ∧
    ∃ r, ADMIN_ROLES (jsToUpperCase "moderator") = some r ∧
      "view_users" ∈ r.permissions.map fun q => q.id :=
  ⟨(nonTopRole_authorization_matches_catalog "moderator" "edit_users"
      (by decide)).2,
   (nonTopRole_authorization_matches_catalog "moderator" "view_users"
      (by decide)).1.mp (by decide)⟩

/-- C6: for every actor whose resolved role is the top-level role `"admin"`,
the decision is allow for **every** permission string — the bypass
short-circuits before the catalog is consulted, so it is independent of the
catalog contents. -/
theorem topRole_allows_every_permission (p : String) :
    hasAdminPermission (some "admin") p = true := rfl

/-- C10: with role exactly `"admin"`, `hasAdminPermission` accepts every
string (even one outside the catalog), while `getAdminPermissions` returns
exactly the fixed catalog values; hence the check is not equivalent to
membership in the enumeration. -/
theorem adminRole_check_not_equiv_enumeration :
    (∀ p : String, hasAdminPermission (some "admin") p = true) ∧
    getAdminPermissions (some "admin") = ADMIN_PERMISSIONS ∧
    hasAdminPermission (some "admin") "not_a_catalog_permission" = true ∧
    ADMIN_PERMISSIONS.contains "not_a_catalog_permission" = false ∧
    (getAdminPermissions (some "admin")).contains "not_a_catalog_permission"
      = false :=
  ⟨fun _ => rfl, rfl, rfl, by decide, by decide⟩

/-- C7: a denied privileged request terminates with a 403 response and the
database state completely unchanged — no entity read/write and no audit
record; and the `moderator` role is denied `delete_transactions`. -/
theorem denied_request_has_no_effect (db : DB) (roleLookup : Option String)
    (adminId id : String) (updateData : Row) (now : String)
    (ip ua : Option String) :
    (requireAdminPermission roleLookup "edit_transactions" = false →
      putTransaction db roleLookup adminId id updateData now ip ua
        = (.err 403 "Insufficient permissions", db)) ∧
    (requireAdminPermission roleLookup "cancel_transactions" = false →
      deleteTransaction db roleLookup adminId id now ip ua
        = (.err 403 "Insufficient permissions", db)) ∧
    hasAdminPermission (some "moderator") "delete_transactions" = false := by
  refine ⟨?_, ?_, by decide⟩
  · intro h
    unfold putTransaction
    rw [h]
    simp
  · intro h
    unfold deleteTransaction
    rw [h]
    simp

/-- Witness for C7: a moderator hitting the `edit_transactions`-gated and
`cancel_transactions`-gated handlers is denied with the state unchanged. -/
theorem denied_request_has_no_effect_witness :
    putTransaction
        ⟨[("escrow_transactions", [[("id", "t1"), ("status", "pending")]])],
          [], false, false⟩
        (some "moderator") "a1" "t1" [("status", "cancelled")] "T1" none none
      = (.err 403 "Insufficient permissions",
         ⟨[("escrow_transactions", [[("id", "t1"), ("status", "pending")]])],
           [], false, false⟩) ∧
    deleteTransaction
        ⟨[("escrow_transactions", [[("id", "t1"), ("status", "pending")]])],
          [], false, false⟩
        (some "moderator") "a1" "t1" "T1" none none
      = (.err 403 "Insufficient permissions",
         ⟨[("escrow_transactions", [[("id", "t1"), ("status", "pending")]])],
           [], false, false⟩) :=
  ⟨(denied_request_has_no_effect _ (some "moderator") "a1" "t1"
      [("status", "cancelled")] "T1" none none).1 (by decide),
   (denied_request_has_no_effect _ (some "moderator") "a1" "t1"
      [("status", "cancelled")] "T1" none none).2.1 (by decide)⟩

/-- C1 fails on the code: the admin transaction PUT handler applies an
arbitrary status overwrite with no state-machine validation, so a
transaction whose current status is the terminal `completed` is moved back
to `pending` by an authorized request — a transition out of a terminal
state that the claim says is always rejected. -/
theorem terminal_transition_accepted_counterexample :
    (putTransaction
        ⟨[("escrow_transactions", [[("id", "t1"), ("status", "completed")]])],
          [], false, false⟩
        (some "admin") "a1" "t1" [("status", "pending")] "T1" none none).1
      = ApiResponse.ok [("id", "t1"), ("status", "pending"),
          ("updated_at", "T1")] ∧
    findRow (getTable
        (putTransaction
          ⟨[("escrow_transactions",
              [[("id", "t1"), ("status", "completed")]])], [], false, false⟩
          (some "admin") "a1" "t1" [("status", "pending")] "T1" none none).2
        "escrow_transactions") "t1"
      = some [("id", "t1"), ("status", "pending"), ("updated_at", "T1")] := by
  constructor
  · decide
  · decide

/-- C1 amended: the only terminal-state validation the code performs is in
the cancel (DELETE) handler and only against `completed`: a cancel request
on a `completed` transaction fails with 400 and leaves the state unchanged,
while a cancel request on an already-`cancelled` transaction is accepted
and re-persists the `cancelled` status. -/
theorem cancel_completed_rejected (db : DB) (roleLookup : Option String)
    (adminId id now : String) (ip ua : Option String) (cur : Row)
    (hperm : requireAdminPermission roleLookup "cancel_transactions" = true)
    (hfind : findRow (getTable db "escrow_transactions") id = some cur) :
    (getField cur "status" = some "completed" →
      deleteTransaction db roleLookup adminId id now ip ua
        = (.err 400 "Cannot cancel completed transaction", db)) ∧
    (getField cur "status" = some "cancelled" → db.persistFails = false →
      (deleteTransaction db roleLookup adminId id now ip ua).1
        = .okMsg "Transaction cancelled successfully"
            (some (applyUpdate cur
              [("status", "cancelled"), ("updated_at", now)]))) := by
  constructor
  · intro hst
    unfold deleteTransaction
    rw [hperm, hfind]
    simp [hst]
  · intro hst hpf
    unfold deleteTransaction
    rw [hperm, hfind]
    have hne : ¬ getField cur "status" = some "completed" := by
      rw [hst]
      simp
    simp [hne, hpf]

/-- Witness for the amended C1: a concrete completed transaction whose
cancel request is rejected unchanged. -/
theorem cancel_completed_rejected_witness :
    deleteTransaction
        ⟨[("escrow_transactions", [[("id", "t1"), ("status", "completed")]])],
          [], false, false⟩
        (some "admin") "a1" "t1" "T1" none none
      = (.err 400 "Cannot cancel completed transaction",
         ⟨[("escrow_transactions", [[("id", "t1"), ("status", "completed")]])],
           [], false, false⟩) :=
  (cancel_completed_rejected _ (some "admin") "a1" "t1" "T1" none none
      [("id", "t1"), ("status", "completed")]
      (by decide) (by decide)).1 (by decide)

/-- C2 fails on the code: the self-action guard of the users PUT handler
only inspects the `role` field of the payload, so a self-targeted update
whose payload sets only the status field to inactive deactivates the own
account of the actor
and is persisted — the claim says every self-deactivation is rejected. -/
theorem self_deactivation_via_put_counterexample :
    (putUser
        ⟨[("profiles",
            [[("id", "u1"), ("role", "admin"), ("status", "active")]])],
          [], false, false⟩
        (some "u1") "u1" [("status", "inactive")] "T1" none none).1
      = ApiResponse.ok [("id", "u1"), ("role", "admin"),
          ("status", "inactive"), ("updated_at", "T1")] ∧
    findRow (getTable
        (putUser
          ⟨[("profiles",
              [[("id", "u1"), ("role", "admin"), ("status", "active")]])],
            [], false, false⟩
          (some "u1") "u1" [("status", "inactive")] "T1" none none).2
        "profiles") "u1"
      = some [("id", "u1"), ("role", "admin"), ("status", "inactive"),
          ("updated_at", "T1")] := by
  constructor
  · decide
  · decide

/-- C2 amended: only two self-action guards exist — the users PUT handler
rejects a self role change to a truthy value other than `"admin"`, and the
users DELETE handler rejects self-deactivation — both with 400 and the
state unchanged; a self `status` edit through PUT is not guarded. -/
theorem self_action_guards (db : DB) (uid id : String) (updateData : Row)
    (now : String) (ip ua : Option String) :
    (uid = id →
      jsTruthy (getField updateData "role") = true →
      (getField updateData "role" == some "admin") = false →
      ∀ cur, findRow (getTable db "profiles") id = some cur →
      putUser db (some uid) id updateData now ip ua
        = (.err 400 "Cannot change your own admin role", db)) ∧
    (deleteUser db (some uid) uid now ip ua
      = (.err 400 "Cannot deactivate your own account", db)) := by
  constructor
  · intro huid htr hrole cur hfind
    unfold putUser
    rw [hfind]
    simp [huid, htr, hrole]
  · unfold deleteUser
    simp

/-- Witness for the amended C2: a concrete self role-downgrade request and a
concrete self-deactivation request, both rejected unchanged. -/
theorem self_action_guards_witness :
    putUser
        ⟨[("profiles", [[("id", "u1"), ("role", "admin")]])], [], false,
          false⟩
        (some "u1") "u1" [("role", "user")] "T1" none none
      = (.err 400 "Cannot change your own admin role",
         ⟨[("profiles", [[("id", "u1"), ("role", "admin")]])], [], false,
           false⟩) ∧
    deleteUser
        ⟨[("profiles", [[("id", "u1"), ("role", "admin")]])], [], false,
          false⟩
        (some "u1") "u1" "T1" none none
      = (.err 400 "Cannot deactivate your own account",
         ⟨[("profiles", [[("id", "u1"), ("role", "admin")]])], [], false,
           false⟩) :=
  ⟨(self_action_guards _ "u1" "u1" [("role", "user")] "T1" none none).1
      (by decide) (by decide) (by decide)
      [("id", "u1"), ("role", "admin")] (by decide),
   (self_action_guards _ "u1" "u1" [("role", "user")] "T1" none none).2⟩

/-- C9 fails on the code: user account rows can be hard-deleted.  The
generic data-management DELETE accepts the `profiles` table and removes the
addressed account row from storage, and the `user_profiles` DELETE handler
removes its row as well. -/
theorem account_row_hard_deleted_counterexample :
    ((dataDelete
        ⟨[("profiles", [[("id", "u1"), ("status", "active")]])], [], false,
          false⟩
        (some "a1") "profiles" "u1" none none).1
      = ApiResponse.okMsg "Row deleted successfully" none ∧
    getTable (dataDelete
        ⟨[("profiles", [[("id", "u1"), ("status", "active")]])], [], false,
          false⟩
        (some "a1") "profiles" "u1" none none).2 "profiles" = []) ∧
    getTable (deleteUserProfile
        ⟨[("user_profiles", [[("id", "u2"), ("status", "active")]])], [],
          false, false⟩
        "u2").2 "user_profiles" = [] := by
  refine ⟨⟨?_, ?_⟩, ?_⟩
  · decide
  · decide
  · decide

/-- C9 amended: the dedicated users DELETE handler indeed never removes an
account row — it only persists a status change to `inactive` plus a
refreshed `updated_at` — but the generic data-management DELETE (table
`profiles`) and the `user_profiles` DELETE do hard-delete account rows. -/
theorem deactivate_preserves_account_rows (db : DB) (userId : Option String)
    (id now : String) (ip ua : Option String) :
    ((getTable (deleteUser db userId id now ip ua).2 "profiles").map
        (fun r => getField r "id")
      = (getTable db "profiles").map fun r => getField r "id") ∧
    (∀ uid cur, userId = some uid → ¬ uid = id →
      findRow (getTable db "profiles") id = some cur →
      db.persistFails = false →
      (deleteUser db userId id now ip ua).1
        = .okMsg "User deactivated successfully"
            (some (applyUpdate cur
              [("status", "inactive"), ("updated_at", now)]))) := by
  constructor
  · cases userId with
    | none => rfl
    | some uid =>
      simp only [deleteUser]
      by_cases hself : uid = id
      · rw [if_pos hself]
      · rw [if_neg hself]
        cases hfind : findRow (getTable db "profiles") id with
        | none => rfl
        | some cur =>
          cases hpf : db.persistFails with
          | true => simp
          | false =>
            simp only [Bool.false_eq_true, if_false]
            rw [getTable_auditInsert]
            by_cases hmem : (db.tables.any fun e => e.1 = "profiles") = true
            · rw [getTable_setTable_of_mem _ _ _ hmem]
              exact map_id_updateRow _ _ _ (by simp [hasField])
            · have hmem2 : (db.tables.any fun e => e.1 = "profiles") = false :=
                Bool.eq_false_iff.mpr hmem
              unfold getTable
              rw [tables_setTable_of_not_mem db _ _ hmem2]
  · intro uid cur huid hself hfind hpf
    subst huid
    simp only [deleteUser]
    rw [if_neg hself, hfind]
    simp [hpf]

/-- Witness for the amended C9: a concrete deactivation keeps the account
row (same ids before and after) and reports the status change. -/
theorem deactivate_preserves_account_rows_witness :
    (deleteUser
        ⟨[("profiles", [[("id", "u1"), ("status", "active")]])], [], false,
          false⟩
        (some "a1") "u1" "T1" none none).1
      = ApiResponse.okMsg "User deactivated successfully"
          (some (applyUpdate [("id", "u1"), ("status", "active")]
            [("status", "inactive"), ("updated_at", "T1")])) :=
  (deactivate_preserves_account_rows
      ⟨[("profiles", [[("id", "u1"), ("status", "active")]])], [], false,
        false⟩
      (some "a1") "u1" "T1" none none).2 "a1"
    [("id", "u1"), ("status", "active")] rfl (by decide) (by decide) rfl

/-- C3: on every successfully persisted privileged mutation exactly one
audit record is appended, whose snapshot-before is the entity state read
before the mutation and whose snapshot-after is the persisted post-mutation
state, and the record is part of the state returned with the response;
whenever authorization, the entity read, or persistence fails, the whole
state (audit ledger included) is unchanged.  Shown for the transactions PUT
handler and the users PUT handler. -/
theorem audit_record_exactly_once (db : DB) (roleLookup : Option String)
    (adminId id : String) (updateData : Row) (now : String)
    (ip ua : Option String) :
    (∀ cur, requireAdminPermission roleLookup "edit_transactions" = true →
      findRow (getTable db "escrow_transactions") id = some cur →
      db.persistFails = false → db.auditInsertFails = false →
      (putTransaction db roleLookup adminId id updateData now ip
          ua).2.audit_logs
          = db.audit_logs ++
            [{ action := "UPDATE_TRANSACTION", entity_type := "transaction"
               entity_id := some id, old_value := some cur
               new_value := some (applyUpdate cur
                 (setField updateData "updated_at" now))
               performed_by := adminId, ip_address := ip
               user_agent := ua }] ∧
      (putTransaction db roleLookup adminId id updateData now ip ua).1
          = .ok (applyUpdate cur (setField updateData "updated_at" now)) ∧
      (hasField updateData "id" = false →
        findRow (getTable
            (putTransaction db roleLookup adminId id updateData now ip
              ua).2 "escrow_transactions") id
          = some (applyUpdate cur (setField updateData "updated_at" now)))) ∧
    (requireAdminPermission roleLookup "edit_transactions" = false →
      (putTransaction db roleLookup adminId id updateData now ip ua).2
        = db) ∧
    (findRow (getTable db "escrow_transactions") id = none →
      (putTransaction db roleLookup adminId id updateData now ip ua).2
        = db) ∧
    (db.persistFails = true →
      (putTransaction db roleLookup adminId id updateData now ip ua).2
        = db) ∧
    (∀ uid cur,
      ((uid = id) && jsTruthy (getField updateData "role")
          && !(getField updateData "role" == some "admin")) = false →
      findRow (getTable db "profiles") id = some cur →
      db.persistFails = false → db.auditInsertFails = false →
      (putUser db (some uid) id updateData now ip ua).2.audit_logs
          = db.audit_logs ++
            [{ action := "UPDATE_USER", entity_type := "user"
               entity_id := some id, old_value := some cur
               new_value := some (applyUpdate cur
                 (setField updateData "updated_at" now))
               performed_by := uid
               ip_address := some (ip.getD "unknown")
               user_agent := some (ua.getD "unknown") }] ∧
      (putUser db (some uid) id updateData now ip ua).1
          = .ok (applyUpdate cur (setField updateData "updated_at" now))) := by
  refine ⟨?_, ?_, ?_, ?_, ?_⟩
  · intro cur hperm hfind hpf hai
    have hred : putTransaction db roleLookup adminId id updateData now ip ua
        = (ApiResponse.ok
            (applyUpdate cur (setField updateData "updated_at" now)),
           auditInsert
             (setTable db "escrow_transactions"
               (updateRow (getTable db "escrow_transactions") id
                 (setField updateData "updated_at" now)))
             { action := "UPDATE_TRANSACTION", entity_type := "transaction"
               entity_id := some id, old_value := some cur
               new_value := some (applyUpdate cur
                 (setField updateData "updated_at" now))
               performed_by := adminId, ip_address := ip
               user_agent := ua }) := by
      simp only [putTransaction, logAdminAction]
      rw [hperm, hfind]
      simp [hpf]
    have hflag : (setTable db "escrow_transactions"
        (updateRow (getTable db "escrow_transactions") id
          (setField updateData "updated_at" now))).auditInsertFails
        = false := by
      rw [auditInsertFails_setTable]
      exact hai
    refine ⟨?_, ?_, ?_⟩
    · rw [hred]
      show (auditInsert _ _).audit_logs = _
      rw [auditInsert_of_ok _ _ hflag]
      show (setTable _ _ _).audit_logs ++ _ = _
      rw [audit_logs_setTable]
    · rw [hred]
    · intro hid
      rw [hred]
      show findRow (getTable (auditInsert _ _) "escrow_transactions") id = _
      rw [getTable_auditInsert]
      have hspec : hasField (setField updateData "updated_at" now) "id"
          = false := by
        rw [hasField_setField_other _ _ _ _ (by decide)]
        exact hid
      by_cases hmem :
          (db.tables.any fun e => e.1 = "escrow_transactions") = true
      · rw [getTable_setTable_of_mem _ _ _ hmem,
          findRow_updateRow _ _ _ hspec, hfind]
        rfl
      · exfalso
        have hnil := getTable_of_not_mem db "escrow_transactions"
          (Bool.eq_false_iff.mpr hmem)
        rw [hnil] at hfind
        simp [findRow] at hfind
  · intro h
    simp only [putTransaction]
    rw [h]
    simp
  · intro h
    simp only [putTransaction]
    rw [h]
    split
    · rfl
    · rfl
  · intro h
    simp only [putTransaction]
    split
    · rfl
    · split
      · rfl
      · simp [h]
  · intro uid cur hguard hfind hpf hai
    have hred : putUser db (some uid) id updateData now ip ua
        = (ApiResponse.ok
            (applyUpdate cur (setField updateData "updated_at" now)),
           auditInsert
             (setTable db "profiles"
               (updateRow (getTable db "profiles") id
                 (setField updateData "updated_at" now)))
             { action := "UPDATE_USER", entity_type := "user"
               entity_id := some id, old_value := some cur
               new_value := some (applyUpdate cur
                 (setField updateData "updated_at" now))
               performed_by := uid
               ip_address := some (ip.getD "unknown")
               user_agent := some (ua.getD "unknown") }) := by
      simp only [putUser]
      rw [hfind, hguard]
      simp [hpf]
    have hflag : (setTable db "profiles"
        (updateRow (getTable db "profiles") id
          (setField updateData "updated_at" now))).auditInsertFails
        = false := by
      rw [auditInsertFails_setTable]
      exact hai
    constructor
    · rw [hred]
      show (auditInsert _ _).audit_logs = _
      rw [auditInsert_of_ok _ _ hflag]
      show (setTable _ _ _).audit_logs ++ _ = _
      rw [audit_logs_setTable]
    · rw [hred]

/-- Witness for C3: a concrete successful transaction update appends exactly
one audit record carrying the pre-read snapshot and the persisted row. -/
theorem audit_record_exactly_once_witness :
    (putTransaction
        ⟨[("escrow_transactions", [[("id", "t9"), ("status", "pending")]])],
          [], false, false⟩
        (some "super_admin") "a9" "t9" [("description", "updated")] "T9"
        none none).2.audit_logs
      = (⟨[("escrow_transactions", [[("id", "t9"), ("status", "pending")]])],
            [], false, false⟩ : DB).audit_logs ++
        [{ action := "UPDATE_TRANSACTION", entity_type := "transaction"
           entity_id := some "t9"
           old_value := some [("id", "t9"), ("status", "pending")]
           new_value := some (applyUpdate
             [("id", "t9"), ("status", "pending")]
             (setField [("description", "updated")] "updated_at" "T9"))
           performed_by := "a9", ip_address := none, user_agent := none }] :=
  ((audit_record_exactly_once _ (some "super_admin") "a9" "t9"
      [("description", "updated")] "T9" none none).1
    [("id", "t9"), ("status", "pending")] (by decide) (by decide) rfl rfl).1

/-- C4 fails on the code: the transactions PUT handler — an arbitrary
field-edit update — does not strip the system-owned fields: a payload
containing `created_at` overwrites the stored `created_at`. -/
theorem system_fields_not_stripped_counterexample :
    (putTransaction
        ⟨[("escrow_transactions",
            [[("id", "t1"), ("created_at", "2020"), ("status", "pending")]])],
          [], false, false⟩
        (some "admin") "a1" "t1" [("created_at", "2026")] "T1" none none).1
      = ApiResponse.ok [("id", "t1"), ("created_at", "2026"),
          ("status", "pending"), ("updated_at", "T1")] := by
  decide

/-- C4 amended: only the generic data-management PUT strips `id` and
`created_at` unconditionally and then refreshes `updated_at`; for it, the
persisted row keeps the stored `id` and `created_at` whatever the payload
says, carries `updated_at = now`, and every other field takes the payload
value when bound and the stored value otherwise. -/
theorem dataPut_strips_system_fields (db : DB) (uid table id : String)
    (updateData : Row) (now : String) (ip ua : Option String) (cur : Row)
    (htab : allowedTables.contains table = true)
    (hfind : findRow (getTable db table) id = some cur)
    (hpf : db.persistFails = false) :
    (dataPut db (some uid) table id updateData now ip ua).1
      = .ok (applyUpdate cur
          (setField (stripSystemFields updateData) "updated_at" now)) ∧
    getField (applyUpdate cur
        (setField (stripSystemFields updateData) "updated_at" now)) "id"
      = getField cur "id" ∧
    getField (applyUpdate cur
        (setField (stripSystemFields updateData) "updated_at" now))
        "created_at"
      = getField cur "created_at" ∧
    getField (applyUpdate cur
        (setField (stripSystemFields updateData) "updated_at" now))
        "updated_at"
      = some now ∧
    (∀ f, f ≠ "id" → f ≠ "created_at" → f ≠ "updated_at" →
      getField (applyUpdate cur
          (setField (stripSystemFields updateData) "updated_at" now)) f
        = match lastFieldValue updateData f with
          | some v => some v
          | none => getField cur f) := by
  refine ⟨?_, ?_, ?_, ?_, ?_⟩
  · simp only [dataPut]
    rw [htab, hfind]
    simp [hpf]
  · apply getField_applyUpdate_of_not_bound
    rw [hasField_setField_other _ _ _ _ (by decide)]
    exact hasField_stripSystemFields_id updateData
  · apply getField_applyUpdate_of_not_bound
    rw [hasField_setField_other _ _ _ _ (by decide)]
    exact hasField_stripSystemFields_created_at updateData
  · rw [getField_applyUpdate, lastFieldValue_setField_same]
  · intro f hf1 hf2 hf3
    rw [getField_applyUpdate, lastFieldValue_setField_other _ _ _ _ hf3,
      lastFieldValue_stripSystemFields _ _ hf1 hf2]

/-- Witness for the amended C4: a payload smuggling `id` and `created_at`
through the generic data route leaves both stored values intact while the
other payload field and `updated_at` are applied. -/
theorem dataPut_strips_system_fields_witness :
    (dataPut
        ⟨[("profiles",
            [[("id", "u1"), ("created_at", "2020"), ("bio", "old")]])],
          [], false, false⟩
        (some "a1") "profiles" "u1"
        [("id", "HACK"), ("created_at", "2030"), ("bio", "new")] "T2"
        none none).1
      = ApiResponse.ok (applyUpdate
          [("id", "u1"), ("created_at", "2020"), ("bio", "old")]
          (setField (stripSystemFields
            [("id", "HACK"), ("created_at", "2030"), ("bio", "new")])
            "updated_at" "T2")) :=
  (dataPut_strips_system_fields _ "a1" "profiles" "u1"
      [("id", "HACK"), ("created_at", "2030"), ("bio", "new")] "T2"
      none none [("id", "u1"), ("created_at", "2020"), ("bio", "old")]
      (by decide) (by decide) rfl).1

/-- C8: once the entity mutation has persisted, a failing audit append never
rolls it back and never aborts the action: `logAdminAction` swallows the
storage failure and returns normally, and the transactions PUT handler
still answers with the post-mutation snapshot while the mutated tables are
kept and the audit ledger stays as it was. -/
theorem audit_failure_is_degraded_success (db : DB)
    (roleLookup : Option String) (adminId id action etype : String)
    (eid : Option String) (oldV newV : Option Row) (updateData : Row)
    (now : String) (ip ua : Option String) :
    (db.auditInsertFails = true →
      logAdminAction db adminId action etype eid oldV newV ip ua = db) ∧
    (∀ cur, requireAdminPermission roleLookup "edit_transactions" = true →
      findRow (getTable db "escrow_transactions") id = some cur →
      db.persistFails = false → db.auditInsertFails = true →
      (putTransaction db roleLookup adminId id updateData now ip ua).1
          = .ok (applyUpdate cur (setField updateData "updated_at" now)) ∧
      (putTransaction db roleLookup adminId id updateData now ip
          ua).2.audit_logs = db.audit_logs ∧
      (putTransaction db roleLookup adminId id updateData now ip ua).2.tables
          = (setTable db "escrow_transactions"
              (updateRow (getTable db "escrow_transactions") id
                (setField updateData "updated_at" now))).tables) := by
  constructor
  · intro h
    unfold logAdminAction
    exact auditInsert_of_fail db _ h
  · intro cur hperm hfind hpf hai
    have hred : putTransaction db roleLookup adminId id updateData now ip ua
        = (ApiResponse.ok
            (applyUpdate cur (setField updateData "updated_at" now)),
           auditInsert
             (setTable db "escrow_transactions"
               (updateRow (getTable db "escrow_transactions") id
                 (setField updateData "updated_at" now)))
             { action := "UPDATE_TRANSACTION", entity_type := "transaction"
               entity_id := some id, old_value := some cur
               new_value := some (applyUpdate cur
                 (setField updateData "updated_at" now))
               performed_by := adminId, ip_address := ip
               user_agent := ua }) := by
      simp only [putTransaction, logAdminAction]
      rw [hperm, hfind]
      simp [hpf]
    have hflag : (setTable db "escrow_transactions"
        (updateRow (getTable db "escrow_transactions") id
          (setField updateData "updated_at" now))).auditInsertFails
        = true := by
      rw [auditInsertFails_setTable]
      exact hai
    refine ⟨?_, ?_, ?_⟩
    · rw [hred]
    · rw [hred]
      show (auditInsert _ _).audit_logs = _
      rw [auditInsert_of_fail _ _ hflag]
      exact audit_logs_setTable _ _ _
    · rw [hred]
      show (auditInsert _ _).tables = _
      rw [auditInsert_of_fail _ _ hflag]

/-- Witness for C8: a concrete update whose audit insert is rejected by the
store still succeeds, keeps the mutation, and leaves the ledger empty. -/
theorem audit_failure_is_degraded_success_witness :
    (putTransaction
        ⟨[("escrow_transactions", [[("id", "t3"), ("status", "pending")]])],
          [], false, true⟩
        (some "admin") "a3" "t3" [("description", "x")] "T3" none none).1
      = ApiResponse.ok (applyUpdate [("id", "t3"), ("status", "pending")]
          (setField [("description", "x")] "updated_at" "T3")) ∧
    (putTransaction
        ⟨[("escrow_transactions", [[("id", "t3"), ("status", "pending")]])],
          [], false, true⟩
        (some "admin") "a3" "t3" [("description", "x")] "T3" none
        none).2.audit_logs
      = (⟨[("escrow_transactions", [[("id", "t3"), ("status", "pending")]])],
            [], false, true⟩ : DB).audit_logs :=
  ⟨((audit_failure_is_degraded_success _ (some "admin") "a3" "t3" "x" "x"
        none none none [("description", "x")] "T3" none none).2
      [("id", "t3"), ("status", "pending")] rfl (by decide) rfl rfl).1,
   ((audit_failure_is_degraded_success _ (some "admin") "a3" "t3" "x" "x"
        none none none [("description", "x")] "T3" none none).2
      [("id", "t3"), ("status", "pending")] rfl (by decide) rfl rfl).2.1⟩
